import Mathlib

/-
Shallow embedding of the Object-Relations data-access layer
(src/lib/models/author.py, src/lib/models/article.py,
src/lib/models/magazine.py, src/lib/db/transaction.py).

Storage is modelled as an explicit state (lists of rows per table plus
autoincrement counters and a clock for server-assigned timestamps);
Python exceptions are modelled with Except; every operation that may
raise returns Except PyErr.  SQLite specifics that the code relies on
(LIKE with percent/underscore wildcards and ASCII case folding, LIMIT
with negative values meaning "no limit") are embedded directly.
-/

namespace ObjectRelations

/-- Python exception classes that the library raises or catches. -/
inductive PyErr where
  | valueError : String → PyErr
  | typeError : String → PyErr
deriving Repr, DecidableEq

/-- A row of the authors table (id, name, created_at). -/
structure AuthorRow where
  id : Int
  name : String
  created_at : String
deriving Repr, DecidableEq

/-- A row of the magazines table (id, name, category, created_at). -/
structure MagazineRow where
  id : Int
  name : String
  category : String
  created_at : String
deriving Repr, DecidableEq

/-- A row of the articles table. -/
structure ArticleRow where
  id : Int
  title : String
  content : String
  author_id : Int
  magazine_id : Int
  published_at : String
deriving Repr, DecidableEq

/-- The whole SQLite store: one list of rows per table, the
autoincrement counters, and the value the engine would use for
timestamp defaults (CURRENT_TIMESTAMP), kept abstract as a string. -/
structure DB where
  authors : List AuthorRow
  magazines : List MagazineRow
  articles : List ArticleRow
  nextAuthorId : Int
  nextMagazineId : Int
  nextArticleId : Int
  now : String
deriving Repr, DecidableEq

/-- In-memory Author entity (dataclass fields of lib/models/author.py). -/
structure Author where
  id : Option Int
  name : String
  created_at : Option String
deriving Repr, DecidableEq

/-- In-memory Magazine entity (dataclass fields of lib/models/magazine.py). -/
structure Magazine where
  id : Option Int
  name : String
  category : String
  created_at : Option String
deriving Repr, DecidableEq

/-- In-memory Article entity (dataclass fields of lib/models/article.py). -/
structure Article where
  id : Option Int
  title : String
  content : String
  author_id : Int
  magazine_id : Int
  published_at : Option String
deriving Repr, DecidableEq

/-- The Python blank test: not s.strip() holds exactly when every
character of s is whitespace (stripping whitespace from both ends
leaves the empty string). -/
def isBlank (s : String) : Bool :=
  s.data.all Char.isWhitespace

/-- Author._validate_name: blank (after strip) and oversized names are
rejected.  The isinstance check disappears in the typed embedding. -/
def validate_name (name : String) : Except PyErr Unit :=
  if isBlank name then .error (.valueError ("Author name cannot be blank"))
  else if name.length > 255 then .error (.valueError ("Author name cannot exceed 255 characters"))
  else .ok ()

/-- Author(id=..., name=..., created_at=...): dataclass construction
runs __post_init__ which calls _validate_name.  Construction is a pure
function of its arguments: it takes no connection and performs no
storage interaction. -/
def mkAuthor (id : Option Int) (name : String) (created_at : Option String := none) :
    Except PyErr Author :=
  match validate_name name with
  | .error e => .error e
  | .ok _ => .ok ⟨id, name, created_at⟩

/-- Magazine._validate_fields. -/
def validate_magazine_fields (name category : String) : Except PyErr Unit :=
  if isBlank name then .error (.valueError ("Magazine name must be a non-empty string"))
  else if name.length > 255 then .error (.valueError ("Magazine name cannot exceed 255 characters"))
  else if isBlank category then .error (.valueError ("Category must be a non-empty string"))
  else .ok ()

/-- Magazine(...): construction with __post_init__ validation. -/
def mkMagazine (id : Option Int) (name category : String)
    (created_at : Option String := none) : Except PyErr Magazine :=
  match validate_magazine_fields name category with
  | .error e => .error e
  | .ok _ => .ok ⟨id, name, category, created_at⟩

/-- Article._validate_fields, in source order: title, content, then the
two foreign-key fields, which must be positive. -/
def validate_article_fields (title content : String) (author_id magazine_id : Int) :
    Except PyErr Unit :=
  if isBlank title then .error (.valueError ("Article title must be a non-empty string"))
  else if title.length > 255 then .error (.valueError ("Article title cannot exceed 255 characters"))
  else if isBlank content then .error (.valueError ("Article content must be a non-empty string"))
  else if author_id ≤ 0 then .error (.valueError ("Author ID must be a positive integer"))
  else if magazine_id ≤ 0 then .error (.valueError ("Magazine ID must be a positive integer"))
  else .ok ()

/-- Article(...): construction with __post_init__ validation; pure in
its arguments, no storage interaction. -/
def mkArticle (id : Option Int) (title content : String) (author_id magazine_id : Int)
    (published_at : Option String := none) : Except PyErr Article :=
  match validate_article_fields title content author_id magazine_id with
  | .error e => .error e
  | .ok _ => .ok ⟨id, title, content, author_id, magazine_id, published_at⟩

/-- Author._row_to_author: the one shared row conversion of the Author
class.  cls(...) re-runs dataclass validation on the name, while id and
created_at are copied from the row unvalidated. -/
def row_to_author (r : AuthorRow) : Except PyErr Author :=
  mkAuthor (some r.id) r.name (some r.created_at)

/-- Magazine._row_to_magazine. -/
def row_to_magazine (r : MagazineRow) : Except PyErr Magazine :=
  mkMagazine (some r.id) r.name r.category (some r.created_at)

/-- Article._row_to_article. -/
def row_to_article (r : ArticleRow) : Except PyErr Article :=
  mkArticle (some r.id) r.title r.content r.author_id r.magazine_id (some r.published_at)

/-- The list comprehension [f(row) for row in rows], where f may raise:
the first exception aborts the whole comprehension. -/
def mapRows (f : α → Except PyErr β) : List α → Except PyErr (List β)
  | [] => .ok []
  | r :: rs =>
    match f r with
    | .error e => .error e
    | .ok b =>
      match mapRows f rs with
      | .error e => .error e
      | .ok bs => .ok (b :: bs)

/-- ASCII case folding, as the default LIKE of SQLite applies it. -/
def toLowerAscii (c : Char) : Char :=
  if 'A' ≤ c ∧ c ≤ 'Z' then Char.ofNat (c.toNat + 32) else c

/-- Character comparison under SQLite LIKE: ASCII-case-insensitive. -/
def charLikeEq (p c : Char) : Bool :=
  toLowerAscii p = toLowerAscii c

/-- SQLite LIKE pattern matching over character lists: percent matches
any sequence (tried against every suffix of the subject), underscore
any single character, and other characters match themselves up to
ASCII case. -/
def likeMatch : List Char → List Char → Bool
  | [], s => s.isEmpty
  | c :: ps, s =>
    if c = '%' then
      s.tails.any (fun tl => likeMatch ps tl)
    else
      match s with
      | [] => false
      | d :: tl => (c = '_' || charLikeEq c d) && likeMatch ps tl

/-- column LIKE pattern, on strings. -/
def sqlLike (pattern s : String) : Bool :=
  likeMatch pattern.data s.data

/-- Python truthiness of the optional limit argument: None and 0 are
falsy, every other integer is truthy. -/
def pyTruthy : Option Int → Bool
  | none => false
  | some n => n != 0

/-- The LIMIT clause is appended only when the limit argument is truthy
(Python: query + (" LIMIT ?" if limit else "")); SQLite treats a
negative LIMIT as "no limit". -/
def applyLimit (rows : List α) (limit : Option Int) : List α :=
  if pyTruthy limit then
    match limit with
    | some n => if n < 0 then rows else rows.take n.toNat
    | none => rows
  else rows

/-- Author.find_by_id: SELECT * FROM authors WHERE id = ? then
fetchone, mapped through _row_to_author when a row is found. -/
def Author.find_by_id (db : DB) (author_id : Int) : Except PyErr (Option Author) :=
  match db.authors.find? (fun r => r.id == author_id) with
  | none => .ok none
  | some r => (row_to_author r).map some

/-- The rows Author.find_by_name selects: equality on the name when
exact, otherwise name LIKE the term wrapped in percent wildcards. -/
def authorNameRows (db : DB) (name : String) (exact : Bool) : List AuthorRow :=
  if exact then db.authors.filter (fun r => r.name == name)
  else db.authors.filter (fun r => sqlLike ("%" ++ name ++ "%") r.name)

/-- Author.find_by_name: the selected rows mapped by _row_to_author. -/
def Author.find_by_name (db : DB) (name : String) (exact : Bool := false) :
    Except PyErr (List Author) :=
  mapRows row_to_author (authorNameRows db name exact)

/-- Magazine.find_by_id. -/
def Magazine.find_by_id (db : DB) (magazine_id : Int) : Except PyErr (Option Magazine) :=
  match db.magazines.find? (fun r => r.id == magazine_id) with
  | none => .ok none
  | some r => (row_to_magazine r).map some

/-- The rows Magazine.find_by_name selects. -/
def magazineNameRows (db : DB) (name : String) (exact : Bool) : List MagazineRow :=
  if exact then db.magazines.filter (fun r => r.name == name)
  else db.magazines.filter (fun r => sqlLike ("%" ++ name ++ "%") r.name)

/-- Magazine.find_by_name. -/
def Magazine.find_by_name (db : DB) (name : String) (exact : Bool := false) :
    Except PyErr (List Magazine) :=
  mapRows row_to_magazine (magazineNameRows db name exact)

/-- Magazine.find_by_category. -/
def Magazine.find_by_category (db : DB) (category : String) (exact : Bool := false) :
    Except PyErr (List Magazine) :=
  mapRows row_to_magazine
    (if exact then db.magazines.filter (fun r => r.category == category)
     else db.magazines.filter (fun r => sqlLike ("%" ++ category ++ "%") r.category))

/-- Article.find_by_id. -/
def Article.find_by_id (db : DB) (article_id : Int) : Except PyErr (Option Article) :=
  match db.articles.find? (fun r => r.id == article_id) with
  | none => .ok none
  | some r => (row_to_article r).map some

/-- Article.find_by_title. -/
def Article.find_by_title (db : DB) (title : String) (exact : Bool := false) :
    Except PyErr (List Article) :=
  mapRows row_to_article
    (if exact then db.articles.filter (fun r => r.title == title)
     else db.articles.filter (fun r => sqlLike ("%" ++ title ++ "%") r.title))

/-- Article.find_by_author: WHERE author_id = ? with the optional LIMIT
of applyLimit, rows mapped by _row_to_article. -/
def Article.find_by_author (db : DB) (author_id : Int) (limit : Option Int := none) :
    Except PyErr (List Article) :=
  mapRows row_to_article (applyLimit (db.articles.filter (fun r => r.author_id == author_id)) limit)

/-- Article.find_by_magazine. -/
def Article.find_by_magazine (db : DB) (magazine_id : Int) (limit : Option Int := none) :
    Except PyErr (List Article) :=
  mapRows row_to_article (applyLimit (db.articles.filter (fun r => r.magazine_id == magazine_id)) limit)

/-- Author.save.  With identity absent: INSERT INTO authors (name),
then self.id = cursor.lastrowid (created_at is not read back).  With
identity present: UPDATE authors SET name = ? WHERE id = ?.  Inserted
rows receive the autoincrement id and timestamp default of the engine. -/
def Author.save (a : Author) (db : DB) : Except PyErr (Author × DB) :=
  match a.id with
  | none =>
    .ok ({ a with id := some db.nextAuthorId },
         { db with
            authors := db.authors ++ [⟨db.nextAuthorId, a.name, db.now⟩],
            nextAuthorId := db.nextAuthorId + 1 })
  | some i =>
    .ok (a, { db with
              authors := db.authors.map (fun r => if r.id == i then { r with name := a.name } else r) })

/-- Magazine.save: insert via RETURNING id, created_at (both copied
onto the entity), or UPDATE of name and category when id is present. -/
def Magazine.save (m : Magazine) (db : DB) : Except PyErr (Magazine × DB) :=
  match m.id with
  | none =>
    .ok ({ m with id := some db.nextMagazineId, created_at := some db.now },
         { db with
            magazines := db.magazines ++ [⟨db.nextMagazineId, m.name, m.category, db.now⟩],
            nextMagazineId := db.nextMagazineId + 1 })
  | some i =>
    .ok (m, { db with
              magazines := db.magazines.map
                (fun r => if r.id == i then { r with name := m.name, category := m.category } else r) })

/-- Article.save: insert via RETURNING id, published_at, or UPDATE of
title, content, author_id and magazine_id when id is present.  The
save method takes no connection argument (def save(self)). -/
def Article.save (a : Article) (db : DB) : Except PyErr (Article × DB) :=
  match a.id with
  | none =>
    .ok ({ a with id := some db.nextArticleId, published_at := some db.now },
         { db with
            articles := db.articles ++
              [⟨db.nextArticleId, a.title, a.content, a.author_id, a.magazine_id, db.now⟩],
            nextArticleId := db.nextArticleId + 1 })
  | some i =>
    .ok (a, { db with
              articles := db.articles.map
                (fun r => if r.id == i then
                    { r with title := a.title, content := a.content,
                             author_id := a.author_id, magazine_id := a.magazine_id }
                  else r) })

/-- One article specification passed to add_author_with_articles: a
dict with a title, a magazine_id, and an optional content key
(article_data.get with key content supplies the empty-string default). -/
structure ArticleSpec where
  title : String
  content : Option String
  magazine_id : Int
deriving Repr, DecidableEq

/-- The loop body of add_author_with_articles over article_data.  Each
iteration constructs the Article (which validates) and then calls
save(conn=conn); Article.save is declared as save(self) with no conn
parameter, so the call itself raises TypeError before any article
insert can happen. -/
def articlesLoop (authorId : Int) : List ArticleSpec → Except PyErr Unit
  | [] => .ok ()
  | s :: _rest =>
    match mkArticle none s.title (s.content.getD "") authorId s.magazine_id with
    | .error e => .error e
    | .ok _ => .error (.typeError ("save() got an unexpected keyword argument conn"))

/-- The body executed inside the transaction() context manager:
construct the Author (validating the name), INSERT it RETURNING id and
created_at, then run the article loop.  Any error escapes to the
context manager, which rolls the transaction back. -/
def txBody (db : DB) (author_name : String) (articles_data : List ArticleSpec) :
    Except PyErr DB :=
  match mkAuthor none author_name with
  | .error e => .error e
  | .ok author =>
    let row : AuthorRow := ⟨db.nextAuthorId, author.name, db.now⟩
    let db1 : DB := { db with authors := db.authors ++ [row], nextAuthorId := db.nextAuthorId + 1 }
    match articlesLoop row.id articles_data with
    | .error e => .error e
    | .ok _ => .ok db1

/-- add_author_with_articles: runs txBody under BEGIN/COMMIT/ROLLBACK;
a committed body yields (True, new store), any exception triggers
ROLLBACK (the store reverts to its initial state) and is swallowed into
the boolean False. -/
def add_author_with_articles (db : DB) (author_name : String)
    (articles_data : List ArticleSpec) : Bool × DB :=
  match txBody db author_name articles_data with
  | .ok db1 => (true, db1)
  | .error _ => (false, db)

/-- Well-formed store: every row id is below the table autoincrement
counter, so a freshly assigned id collides with no existing row. -/
def DB.WF (db : DB) : Prop :=
  (∀ r ∈ db.authors, r.id < db.nextAuthorId) ∧
  (∀ r ∈ db.magazines, r.id < db.nextMagazineId) ∧
  (∀ r ∈ db.articles, r.id < db.nextArticleId)

/-- Data Model invariant for authors: non-empty name of at most 255
characters. -/
def authorInv (a : Author) : Prop :=
  isBlank a.name = false ∧ a.name.length ≤ 255

/-- Data Model invariant for magazines: non-empty name of at most 255
characters. -/
def magazineInv (m : Magazine) : Prop :=
  isBlank m.name = false ∧ m.name.length ≤ 255

/-- Data Model invariant for articles: non-empty title of at most 255
characters and positive foreign-key fields. -/
def articleInv (x : Article) : Prop :=
  isBlank x.title = false ∧ x.title.length ≤ 255 ∧ 0 < x.author_id ∧ 0 < x.magazine_id

/-- A small populated store used by the concrete witnesses: one author,
one magazine, one article, counters past the used ids. -/
def sampleDB : DB :=
  ⟨[⟨1, "Alice Walker", "t0"⟩], [⟨1, "Vogue", "Fashion", "t0"⟩],
   [⟨1, "The Color Purple", "Body", 1, 1, "t0"⟩], 2, 2, 2, "t1"⟩

theorem mapRows_mem {f : α → Except PyErr β} {rows : List α} {l : List β} {r : α} {b : β}
    (h : mapRows f rows = .ok l) (hr : r ∈ rows) (hb : f r = .ok b) : b ∈ l := by
  induction rows generalizing l with
  | nil => cases hr
  | cons x xs ih =>
    rw [mapRows] at h
    cases hfx : f x with
    | error e => rw [hfx] at h; cases h
    | ok y =>
      rw [hfx] at h
      cases hrec : mapRows f xs with
      | error e => rw [hrec] at h; cases h
      | ok ys =>
        rw [hrec] at h
        cases h
        rcases List.mem_cons.mp hr with hEq | hMem
        · subst hEq
          rw [hfx] at hb
          cases hb
          exact List.mem_cons_self _ _
        · exact List.mem_cons_of_mem _ (ih hrec hMem)

theorem mapRows_mem_src {f : α → Except PyErr β} {rows : List α} {l : List β} {b : β}
    (h : mapRows f rows = .ok l) (hb : b ∈ l) : ∃ r ∈ rows, f r = .ok b := by
  induction rows generalizing l with
  | nil =>
    rw [mapRows] at h
    cases h
    cases hb
  | cons x xs ih =>
    rw [mapRows] at h
    cases hfx : f x with
    | error e => rw [hfx] at h; cases h
    | ok y =>
      rw [hfx] at h
      cases hrec : mapRows f xs with
      | error e => rw [hrec] at h; cases h
      | ok ys =>
        rw [hrec] at h
        cases h
        rcases List.mem_cons.mp hb with hEq | hMem
        · exact ⟨x, List.mem_cons_self _ _, by rw [hfx, hEq]⟩
        · obtain ⟨r, hr, hfr⟩ := ih hrec hMem
          exact ⟨r, List.mem_cons_of_mem _ hr, hfr⟩

theorem mapRows_take {f : α → Except PyErr β} {rows : List α} {l : List β}
    (h : mapRows f rows = .ok l) : ∀ k, mapRows f (rows.take k) = .ok (l.take k) := by
  induction rows generalizing l with
  | nil =>
    rw [mapRows] at h
    cases h
    intro k
    simp [mapRows]
  | cons x xs ih =>
    rw [mapRows] at h
    cases hfx : f x with
    | error e => rw [hfx] at h; cases h
    | ok y =>
      rw [hfx] at h
      cases hrec : mapRows f xs with
      | error e => rw [hrec] at h; cases h
      | ok ys =>
        rw [hrec] at h
        cases h
        intro k
        cases k with
        | zero => simp [mapRows]
        | succ k =>
          rw [List.take_succ_cons, mapRows, hfx, ih hrec k, List.take_succ_cons]

theorem mapRows_subset {f : α → Except PyErr β} {rows1 rows2 : List α} {l1 l2 : List β}
    (hsub : ∀ r ∈ rows1, r ∈ rows2)
    (h1 : mapRows f rows1 = .ok l1) (h2 : mapRows f rows2 = .ok l2) :
    ∀ b ∈ l1, b ∈ l2 := by
  intro b hb
  obtain ⟨r, hr, hfr⟩ := mapRows_mem_src h1 hb
  exact mapRows_mem h2 (hsub r hr) hfr

theorem bool_ne_true {b : Bool} (h : b = false) : ¬ (b = true) := by
  simp [h]

theorem bool_eq_false {b : Bool} (h : ¬ (b = true)) : b = false := by
  cases b
  · rfl
  · exact absurd rfl h

theorem validate_name_ok {name : String} (h1 : isBlank name = false) (h2 : name.length ≤ 255) :
    validate_name name = .ok () := by
  rw [validate_name, if_neg (bool_ne_true h1), if_neg (by omega)]

theorem row_to_author_fields {r : AuthorRow} {a : Author}
    (h : row_to_author r = .ok a) : a = ⟨some r.id, r.name, some r.created_at⟩ := by
  rw [row_to_author, mkAuthor] at h
  cases hv : validate_name r.name with
  | error e => rw [hv] at h; cases h
  | ok u => rw [hv] at h; cases h; rfl

theorem row_to_author_inv {r : AuthorRow} {a : Author}
    (h : row_to_author r = .ok a) : authorInv a := by
  have hf := row_to_author_fields h
  rw [row_to_author, mkAuthor] at h
  cases hv : validate_name r.name with
  | error e => rw [hv] at h; cases h
  | ok u =>
    rw [validate_name] at hv
    by_cases hb : isBlank r.name = true
    · rw [if_pos hb] at hv; cases hv
    · rw [if_neg hb] at hv
      by_cases hl : r.name.length > 255
      · rw [if_pos hl] at hv; cases hv
      · subst hf
        refine ⟨bool_eq_false hb, ?_⟩
        show r.name.length ≤ 255
        omega

theorem row_to_author_ok {r : AuthorRow} (h1 : isBlank r.name = false) (h2 : r.name.length ≤ 255) :
    row_to_author r = .ok ⟨some r.id, r.name, some r.created_at⟩ := by
  rw [row_to_author, mkAuthor, validate_name_ok h1 h2]

theorem row_to_magazine_fields {r : MagazineRow} {m : Magazine}
    (h : row_to_magazine r = .ok m) : m = ⟨some r.id, r.name, r.category, some r.created_at⟩ := by
  rw [row_to_magazine, mkMagazine] at h
  cases hv : validate_magazine_fields r.name r.category with
  | error e => rw [hv] at h; cases h
  | ok u => rw [hv] at h; cases h; rfl

theorem row_to_magazine_inv {r : MagazineRow} {m : Magazine}
    (h : row_to_magazine r = .ok m) : magazineInv m := by
  have hf := row_to_magazine_fields h
  rw [row_to_magazine, mkMagazine] at h
  cases hv : validate_magazine_fields r.name r.category with
  | error e => rw [hv] at h; cases h
  | ok u =>
    rw [validate_magazine_fields] at hv
    by_cases hb : isBlank r.name = true
    · rw [if_pos hb] at hv; cases hv
    · rw [if_neg hb] at hv
      by_cases hl : r.name.length > 255
      · rw [if_pos hl] at hv; cases hv
      · subst hf
        refine ⟨bool_eq_false hb, ?_⟩
        show r.name.length ≤ 255
        omega

theorem validate_magazine_ok {name category : String} (h1 : isBlank name = false)
    (h2 : name.length ≤ 255) (h3 : isBlank category = false) :
    validate_magazine_fields name category = .ok () := by
  rw [validate_magazine_fields, if_neg (bool_ne_true h1), if_neg (by omega),
    if_neg (bool_ne_true h3)]

theorem row_to_magazine_ok {r : MagazineRow} (h1 : isBlank r.name = false)
    (h2 : r.name.length ≤ 255) (h3 : isBlank r.category = false) :
    row_to_magazine r = .ok ⟨some r.id, r.name, r.category, some r.created_at⟩ := by
  rw [row_to_magazine, mkMagazine, validate_magazine_ok h1 h2 h3]

theorem validate_article_ok {title content : String} {author_id magazine_id : Int}
    (h1 : isBlank title = false) (h2 : title.length ≤ 255) (h3 : isBlank content = false)
    (h4 : 0 < author_id) (h5 : 0 < magazine_id) :
    validate_article_fields title content author_id magazine_id = .ok () := by
  rw [validate_article_fields, if_neg (bool_ne_true h1), if_neg (by omega),
    if_neg (bool_ne_true h3), if_neg (by omega), if_neg (by omega)]

theorem row_to_article_fields {r : ArticleRow} {x : Article}
    (h : row_to_article r = .ok x) :
    x = ⟨some r.id, r.title, r.content, r.author_id, r.magazine_id, some r.published_at⟩ := by
  rw [row_to_article, mkArticle] at h
  cases hv : validate_article_fields r.title r.content r.author_id r.magazine_id with
  | error e => rw [hv] at h; cases h
  | ok u => rw [hv] at h; cases h; rfl

theorem row_to_article_inv {r : ArticleRow} {x : Article}
    (h : row_to_article r = .ok x) : articleInv x := by
  have hf := row_to_article_fields h
  rw [row_to_article, mkArticle] at h
  cases hv : validate_article_fields r.title r.content r.author_id r.magazine_id with
  | error e => rw [hv] at h; cases h
  | ok u =>
    rw [validate_article_fields] at hv
    by_cases g1 : isBlank r.title = true
    · rw [if_pos g1] at hv; cases hv
    · rw [if_neg g1] at hv
      by_cases g2 : r.title.length > 255
      · rw [if_pos g2] at hv; cases hv
      · rw [if_neg g2] at hv
        by_cases g3 : isBlank r.content = true
        · rw [if_pos g3] at hv; cases hv
        · rw [if_neg g3] at hv
          by_cases g4 : r.author_id ≤ 0
          · rw [if_pos g4] at hv; cases hv
          · rw [if_neg g4] at hv
            by_cases g5 : r.magazine_id ≤ 0
            · rw [if_pos g5] at hv; cases hv
            · subst hf
              refine ⟨bool_eq_false g1, ?_, ?_, ?_⟩
              · show r.title.length ≤ 255
                omega
              · show 0 < r.author_id
                omega
              · show 0 < r.magazine_id
                omega

theorem row_to_article_ok {r : ArticleRow} (h1 : isBlank r.title = false)
    (h2 : r.title.length ≤ 255)
    (h3 : isBlank r.content = false) (h4 : 0 < r.author_id) (h5 : 0 < r.magazine_id) :
    row_to_article r =
      .ok ⟨some r.id, r.title, r.content, r.author_id, r.magazine_id, some r.published_at⟩ := by
  rw [row_to_article, mkArticle, validate_article_ok h1 h2 h3 h4 h5]

theorem find?_append_last {l : List α} {r : α} {p : α → Bool}
    (h : ∀ x ∈ l, p x = false) (hr : p r = true) :
    (l ++ [r]).find? p = some r := by
  induction l with
  | nil => simp [List.find?, hr]
  | cons x xs ih =>
    have hx : p x = false := h x (List.mem_cons_self _ _)
    rw [List.cons_append, List.find?_cons, hx]
    exact ih (fun y hy => h y (List.mem_cons_of_mem _ hy))

theorem charLikeEq_refl (c : Char) : charLikeEq c c = true := by
  simp [charLikeEq]

theorem likeMatch_pct {ps : List Char} {s : List Char} :
    likeMatch ('%' :: ps) s = s.tails.any (fun tl => likeMatch ps tl) := rfl

theorem likeMatch_pct_of_suffix {ps tl s : List Char} (hsfx : tl <:+ s)
    (h : likeMatch ps tl = true) : likeMatch ('%' :: ps) s = true := by
  rw [likeMatch_pct]
  exact List.any_eq_true.mpr ⟨tl, (List.mem_tails _ _).mpr hsfx, h⟩

theorem likeMatch_self : ∀ p : List Char, likeMatch p p = true := by
  intro p
  induction p with
  | nil => rfl
  | cons c ps ih =>
    by_cases hc : c = '%'
    · subst hc
      exact likeMatch_pct_of_suffix (List.suffix_cons '%' ps) ih
    · rw [likeMatch, if_neg hc, charLikeEq_refl, ih]
      simp

theorem likeMatch_percent_any (s : List Char) : likeMatch ['%'] s = true := by
  have hsfx : ([] : List Char) <:+ s := List.nil_suffix
  exact likeMatch_pct_of_suffix hsfx rfl

theorem likeMatch_nil_eq {s : List Char} (h : likeMatch [] s = true) : s = [] := by
  cases s with
  | nil => rfl
  | cons c tl => cases h

theorem likeMatch_append : ∀ p1 s1, likeMatch p1 s1 = true →
    ∀ p2 s2, likeMatch p2 s2 = true → likeMatch (p1 ++ p2) (s1 ++ s2) = true := by
  intro p1
  induction p1 with
  | nil =>
    intro s1 h1 p2 s2 h2
    rw [likeMatch_nil_eq h1]
    simpa using h2
  | cons c ps ih =>
    intro s1 h1 p2 s2 h2
    by_cases hc : c = '%'
    · subst hc
      rw [likeMatch_pct] at h1
      obtain ⟨tl, htl, hm⟩ := List.any_eq_true.mp h1
      have hsfx : tl <:+ s1 := (List.mem_tails _ _).mp htl
      obtain ⟨o, ho⟩ := hsfx
      have hsfx2 : tl ++ s2 <:+ s1 ++ s2 := ⟨o, by rw [← List.append_assoc, ho]⟩
      exact likeMatch_pct_of_suffix hsfx2 (ih tl hm p2 s2 h2)
    · cases s1 with
      | nil => rw [likeMatch, if_neg hc] at h1; cases h1
      | cons d tl =>
        rw [likeMatch, if_neg hc] at h1
        rcases Bool.and_eq_true_iff.mp h1 with ⟨hd, hrest⟩
        rw [List.cons_append, List.cons_append, likeMatch, if_neg hc, hd]
        simpa using ih tl hrest p2 s2 h2

/-- The wildcard-wrapped search term matches any string containing the
term: the core of the substring-superset property. -/
theorem sqlLike_of_substring (term pre post : String) :
    sqlLike ("%" ++ term ++ "%") (pre ++ term ++ post) = true := by
  rw [sqlLike]
  have hdata1 : ("%" ++ term ++ "%").data = '%' :: (term.data ++ ['%']) := by
    simp [String.data_append]
  have hdata2 : (pre ++ term ++ post).data = pre.data ++ (term.data ++ post.data) := by
    simp [String.data_append]
  rw [hdata1, hdata2]
  have hsfx : term.data ++ post.data <:+ pre.data ++ (term.data ++ post.data) := ⟨pre.data, rfl⟩
  refine likeMatch_pct_of_suffix hsfx ?_
  exact likeMatch_append term.data term.data (likeMatch_self term.data)
    ['%'] post.data (likeMatch_percent_any post.data)

theorem articlesLoop_cons_error (aid : Int) (s : ArticleSpec) (rest : List ArticleSpec) :
    ∃ e, articlesLoop aid (s :: rest) = .error e := by
  cases h : mkArticle none s.title (s.content.getD "") aid s.magazine_id with
  | error e => exact ⟨e, by rw [articlesLoop, h]⟩
  | ok a =>
    exact ⟨.typeError ("save() got an unexpected keyword argument conn"), by rw [articlesLoop, h]⟩

theorem txBody_cons_error (db : DB) (n : String) (s : ArticleSpec) (rest : List ArticleSpec) :
    ∃ e, txBody db n (s :: rest) = .error e := by
  cases hA : mkAuthor none n with
  | error e => exact ⟨e, by rw [txBody, hA]⟩
  | ok author =>
    obtain ⟨e, hloop⟩ := articlesLoop_cons_error db.nextAuthorId (s) rest
    refine ⟨e, ?_⟩
    rw [txBody, hA]
    simp only
    rw [hloop]

/-- Any call of the transactional writer with a non-empty article list
fails and leaves the store untouched: the loop body invokes
Article.save with a conn keyword that save(self) does not accept. -/
theorem add_author_cons_false (db : DB) (n : String) (s : ArticleSpec)
    (rest : List ArticleSpec) : add_author_with_articles db n (s :: rest) = (false, db) := by
  obtain ⟨e, he⟩ := txBody_cons_error db n s rest
  rw [add_author_with_articles, he]

theorem txBody_ok_elim {db : DB} {n : String} {L : List ArticleSpec} {db1 : DB}
    (h : txBody db n L = .ok db1) :
    L = [] ∧ validate_name n = .ok () ∧
      db1 = { db with authors := db.authors ++ [⟨db.nextAuthorId, n, db.now⟩],
                      nextAuthorId := db.nextAuthorId + 1 } := by
  cases L with
  | cons s rest =>
    obtain ⟨e, he⟩ := txBody_cons_error db n s rest
    rw [he] at h
    cases h
  | nil =>
    rw [txBody] at h
    cases hA : mkAuthor none n with
    | error e => rw [hA] at h; cases h
    | ok author =>
      rw [hA] at h
      simp only [articlesLoop] at h
      rw [mkAuthor] at hA
      cases hv : validate_name n with
      | error e => rw [hv] at hA; cases hA
      | ok u =>
        rw [hv] at hA
        cases hA
        cases h
        exact ⟨rfl, rfl, rfl⟩

/-- Claim C1: if any article specification in L is invalid (blank
title, non-positive or non-existent magazine id) the transactional
writer returns False and the store is exactly the initial one, so no
author row with that name and no article from L is persisted; whenever
it returns True, exactly one author row (carrying the requested name)
and len(L) article rows were added. -/
theorem c1_transactional_atomicity (db : DB) (name : String) (L : List ArticleSpec) :
    ((∃ s ∈ L, isBlank s.title = true ∨ s.magazine_id ≤ 0 ∨ ∀ m ∈ db.magazines, m.id ≠ s.magazine_id) →
      add_author_with_articles db name L = (false, db)) ∧
    (∀ db1, add_author_with_articles db name L = (true, db1) →
      db1.authors.length = db.authors.length + 1 ∧
      (∃ r ∈ db1.authors, r.name = name) ∧
      db1.articles.length = db.articles.length + L.length) := by
  constructor
  · rintro ⟨s, hs, _⟩
    cases L with
    | nil => cases hs
    | cons a rest => exact add_author_cons_false db name a rest
  · intro db1 h
    rw [add_author_with_articles] at h
    cases ht : txBody db name L with
    | error e => rw [ht] at h; simp at h
    | ok d =>
      rw [ht] at h
      cases h
      obtain ⟨hL, hv, hdb⟩ := txBody_ok_elim ht
      subst hdb
      subst hL
      refine ⟨by simp, ⟨⟨db.nextAuthorId, name, db.now⟩, by simp, rfl⟩, by simp⟩

/-- Witness for C1: a concrete invalid list (blank title) rolls back to
the initial store, and a concrete successful call adds exactly one
author row. -/
theorem c1_transactional_atomicity_witness :
    add_author_with_articles sampleDB "Bob" [⟨"", some "body", 1⟩] = (false, sampleDB) ∧
    (add_author_with_articles sampleDB "Bob" []).2.authors.length =
      sampleDB.authors.length + 1 := by
  constructor
  · exact (c1_transactional_atomicity sampleDB "Bob" [⟨"", some "body", 1⟩]).1
      ⟨⟨"", some "body", 1⟩, List.mem_cons_self _ _, Or.inl (by decide)⟩
  · exact ((c1_transactional_atomicity sampleDB "Bob" []).2
      (add_author_with_articles sampleDB "Bob" []).2 rfl).1

/-- Claim C2: add_author_with_articles is a total function into the
success boolean: the body either commits (True with the new store) or
raises, in which case the exception is swallowed, the transaction is
rolled back (the store is exactly the initial one) and False is
returned. -/
theorem c2_swallows_exceptions (db : DB) (name : String) (L : List ArticleSpec) :
    (∃ db1, txBody db name L = .ok db1 ∧ add_author_with_articles db name L = (true, db1)) ∨
    (∃ e, txBody db name L = .error e ∧ add_author_with_articles db name L = (false, db)) := by
  cases h : txBody db name L with
  | ok db1 => exact Or.inl ⟨db1, rfl, by rw [add_author_with_articles, h]⟩
  | error e => exact Or.inr ⟨e, rfl, by rw [add_author_with_articles, h]⟩

/-- Claim C3: constructing an Author with a blank or oversized name, or
an Article with a blank or oversized title or a non-positive foreign
key, yields a validation error.  Construction (mkAuthor, mkArticle)
is a pure function of the field values with no store parameter, so no
storage call can be attempted and the connection provider is never
invoked. -/
theorem c3_construction_validation :
    (∀ (id : Option Int) (name : String) (ca : Option String),
        isBlank name = true ∨ 255 < name.length →
        ∃ msg, mkAuthor id name ca = .error (.valueError msg)) ∧
    (∀ (id : Option Int) (title content : String) (aid mid : Int) (pub : Option String),
        isBlank title = true ∨ 255 < title.length ∨ aid ≤ 0 ∨ mid ≤ 0 →
        ∃ msg, mkArticle id title content aid mid pub = .error (.valueError msg)) := by
  constructor
  · intro id name ca h
    rw [mkAuthor, validate_name]
    by_cases h1 : isBlank name = true
    · rw [if_pos h1]; exact ⟨_, rfl⟩
    · rw [if_neg h1]
      have h2 : name.length > 255 := by
        rcases h with h | h
        · exact absurd h h1
        · omega
      rw [if_pos h2]; exact ⟨_, rfl⟩
  · intro id title content aid mid pub h
    rw [mkArticle, validate_article_fields]
    by_cases g1 : isBlank title = true
    · rw [if_pos g1]; exact ⟨_, rfl⟩
    rw [if_neg g1]
    by_cases g2 : title.length > 255
    · rw [if_pos g2]; exact ⟨_, rfl⟩
    rw [if_neg g2]
    by_cases g3 : isBlank content = true
    · rw [if_pos g3]; exact ⟨_, rfl⟩
    rw [if_neg g3]
    by_cases g4 : aid ≤ 0
    · rw [if_pos g4]; exact ⟨_, rfl⟩
    rw [if_neg g4]
    have g5 : mid ≤ 0 := by
      rcases h with h | h | h | h
      · exact absurd h g1
      · omega
      · omega
      · omega
    rw [if_pos g5]; exact ⟨_, rfl⟩

/-- Witness for C3: a blank author name and a zero author id are both
rejected at construction. -/
theorem c3_construction_validation_witness :
    (∃ msg, mkAuthor none "" none = .error (.valueError msg)) ∧
    (∃ msg, mkArticle none "T" "B" 0 1 none = .error (.valueError msg)) :=
  ⟨c3_construction_validation.1 none "" none (Or.inl (by decide)),
   c3_construction_validation.2 none "T" "B" 0 1 none
     (Or.inr (Or.inr (Or.inl (by omega))))⟩

/-- Claim C10: the transactional writer defaults a missing content key
to the empty string; blank content fails Article construction with a
validation error, and any such list makes the call return False with
the store exactly as before, so no article with empty content is ever
created through it. -/
theorem c10_content_default_rejected :
    (∀ (id : Option Int) (title : String) (aid mid : Int) (pub : Option String),
        isBlank title = false → title.length ≤ 255 →
        mkArticle id title "" aid mid pub =
          .error (.valueError ("Article content must be a non-empty string"))) ∧
    (∀ (db : DB) (name : String) (L : List ArticleSpec),
        (∃ s ∈ L, isBlank (s.content.getD "") = true) →
        add_author_with_articles db name L = (false, db)) := by
  constructor
  · intro id title aid mid pub h1 h2
    rw [mkArticle, validate_article_fields, if_neg (bool_ne_true h1), if_neg (by omega),
      if_pos (by decide)]
  · rintro db name L ⟨s, hs, _⟩
    cases L with
    | nil => cases hs
    | cons a rest => exact add_author_cons_false db name a rest

/-- Witness for C10: a spec with the content key omitted makes the
writer fail and leave the sample store unchanged, and blank content is
exactly the validation error raised. -/
theorem c10_content_default_rejected_witness :
    mkArticle none "T" "" 2 1 none =
      .error (.valueError ("Article content must be a non-empty string")) ∧
    add_author_with_articles sampleDB "Dana" [⟨"T", none, 1⟩] = (false, sampleDB) :=
  ⟨c10_content_default_rejected.1 none "T" 2 1 none (by decide) (by decide),
   c10_content_default_rejected.2 sampleDB "Dana" [⟨"T", none, 1⟩]
     ⟨⟨"T", none, 1⟩, List.mem_cons_self _ _, by decide⟩⟩

theorem map_some_ok {β : Type} {x : Except PyErr β} {b : β}
    (h : x.map some = .ok (some b)) : x = .ok b := by
  cases x with
  | error e => simp [Except.map] at h
  | ok y =>
    simp [Except.map] at h
    rw [h]

/-- Claim C4: saving a valid, not-yet-persisted entity and looking it
up by the assigned identity returns an entity equal to it in every
user-supplied field (name for Author; name and category for Magazine;
title, content, author_id, magazine_id for Article). -/
theorem c4_round_trip (db : DB) (hwf : db.WF) :
    (∀ (a a1 : Author) (db1 : DB), a.id = none → isBlank a.name = false →
        a.name.length ≤ 255 →
        Author.save a db = .ok (a1, db1) →
        a1.id = some db.nextAuthorId ∧
        ∃ b, Author.find_by_id db1 db.nextAuthorId = .ok (some b) ∧ b.name = a.name) ∧
    (∀ (m m1 : Magazine) (db1 : DB), m.id = none → isBlank m.name = false →
        m.name.length ≤ 255 → isBlank m.category = false →
        Magazine.save m db = .ok (m1, db1) →
        m1.id = some db.nextMagazineId ∧
        ∃ b, Magazine.find_by_id db1 db.nextMagazineId = .ok (some b) ∧
          b.name = m.name ∧ b.category = m.category) ∧
    (∀ (x x1 : Article) (db1 : DB), x.id = none → isBlank x.title = false →
        x.title.length ≤ 255 → isBlank x.content = false →
        0 < x.author_id → 0 < x.magazine_id →
        Article.save x db = .ok (x1, db1) →
        x1.id = some db.nextArticleId ∧
        ∃ b, Article.find_by_id db1 db.nextArticleId = .ok (some b) ∧
          b.title = x.title ∧ b.content = x.content ∧
          b.author_id = x.author_id ∧ b.magazine_id = x.magazine_id) := by
  refine ⟨?_, ?_, ?_⟩
  · intro a a1 db1 hid h1 h2 hsave
    obtain ⟨aid, aname, aca⟩ := a
    have hid2 : aid = none := hid
    subst hid2
    simp only [Author.save] at hsave
    cases hsave
    refine ⟨rfl, ⟨some db.nextAuthorId, aname, some db.now⟩, ?_, rfl⟩
    have hnone : ∀ x ∈ db.authors, (x.id == db.nextAuthorId) = false := by
      intro x hx
      have hlt := hwf.1 x hx
      have hne : x.id ≠ db.nextAuthorId := by omega
      simp [hne]
    have hfind := find?_append_last (r := (⟨db.nextAuthorId, aname, db.now⟩ : AuthorRow))
      hnone (by simp)
    rw [Author.find_by_id]
    rw [hfind]
    show (row_to_author ⟨db.nextAuthorId, aname, db.now⟩).map some = _
    rw [row_to_author_ok h1 h2]
    rfl
  · intro m m1 db1 hid h1 h2 h3 hsave
    obtain ⟨mid, mname, mcat, mca⟩ := m
    have hid2 : mid = none := hid
    subst hid2
    simp only [Magazine.save] at hsave
    cases hsave
    refine ⟨rfl, ⟨some db.nextMagazineId, mname, mcat, some db.now⟩, ?_, rfl, rfl⟩
    have hnone : ∀ x ∈ db.magazines, (x.id == db.nextMagazineId) = false := by
      intro x hx
      have hlt := hwf.2.1 x hx
      have hne : x.id ≠ db.nextMagazineId := by omega
      simp [hne]
    have hfind := find?_append_last
      (r := (⟨db.nextMagazineId, mname, mcat, db.now⟩ : MagazineRow)) hnone (by simp)
    rw [Magazine.find_by_id]
    rw [hfind]
    show (row_to_magazine ⟨db.nextMagazineId, mname, mcat, db.now⟩).map some = _
    rw [row_to_magazine_ok h1 h2 h3]
    rfl
  · intro x x1 db1 hid h1 h2 h3 h4 h5 hsave
    obtain ⟨xid, xtitle, xcontent, xaid, xmid, xpub⟩ := x
    have hid2 : xid = none := hid
    subst hid2
    simp only [Article.save] at hsave
    cases hsave
    refine ⟨rfl,
      ⟨some db.nextArticleId, xtitle, xcontent, xaid, xmid, some db.now⟩,
      ?_, rfl, rfl, rfl, rfl⟩
    have hnone : ∀ y ∈ db.articles, (y.id == db.nextArticleId) = false := by
      intro y hy
      have hlt := hwf.2.2 y hy
      have hne : y.id ≠ db.nextArticleId := by omega
      simp [hne]
    have hfind := find?_append_last
      (r := (⟨db.nextArticleId, xtitle, xcontent, xaid, xmid, db.now⟩ : ArticleRow))
      hnone (by simp)
    rw [Article.find_by_id]
    rw [hfind]
    show (row_to_article ⟨db.nextArticleId, xtitle, xcontent, xaid, xmid, db.now⟩).map some = _
    rw [row_to_article_ok h1 h2 h3 h4 h5]
    rfl

/-- Witness for C4: a concrete valid Author inserted into the sample
store is found again under the assigned id with the same name. -/
theorem c4_round_trip_witness :
    ∃ p, Author.save ⟨none, "Bob", none⟩ sampleDB = .ok p ∧
      p.1.id = some sampleDB.nextAuthorId ∧
      ∃ b, Author.find_by_id p.2 sampleDB.nextAuthorId = .ok (some b) ∧ b.name = "Bob" := by
  obtain ⟨h1, b, h2, h3⟩ :=
    (c4_round_trip sampleDB (by refine ⟨?_, ?_, ?_⟩ <;> decide)).1
      ⟨none, "Bob", none⟩
      ⟨some sampleDB.nextAuthorId, "Bob", none⟩
      { sampleDB with
          authors := sampleDB.authors ++ [⟨sampleDB.nextAuthorId, "Bob", sampleDB.now⟩],
          nextAuthorId := sampleDB.nextAuthorId + 1 }
      rfl (by decide) (by decide) rfl
  exact ⟨_, rfl, h1, b, h2, h3⟩

/-- Claim C5: the shared row conversions are pure functions that
populate every entity field exactly from the row (id and timestamp as
read, unvalidated); both finder shapes route rows through the same
conversion, so two finders handed an identical underlying row yield
the same entity. -/
theorem c5_row_mapping :
    (∀ (r : AuthorRow) (a : Author), row_to_author r = .ok a →
        a = ⟨some r.id, r.name, some r.created_at⟩) ∧
    (∀ (r : ArticleRow) (x : Article), row_to_article r = .ok x →
        x = ⟨some r.id, r.title, r.content, r.author_id, r.magazine_id, some r.published_at⟩) ∧
    (∀ (db : DB) (i : Int) (r : AuthorRow),
        db.authors.find? (fun y => y.id == i) = some r →
        Author.find_by_id db i = (row_to_author r).map some) ∧
    (∀ (db : DB) (n : String) (ex : Bool),
        Author.find_by_name db n ex = mapRows row_to_author (authorNameRows db n ex)) ∧
    (∀ (db db2 : DB) (i : Int) (n : String) (ex : Bool) (r : AuthorRow) (a : Author)
        (l : List Author),
        db.authors.find? (fun y => y.id == i) = some r →
        Author.find_by_id db i = .ok (some a) →
        r ∈ authorNameRows db2 n ex →
        Author.find_by_name db2 n ex = .ok l →
        a ∈ l) := by
  refine ⟨?_, ?_, ?_, ?_, ?_⟩
  · intro r a h
    exact row_to_author_fields h
  · intro r x h
    exact row_to_article_fields h
  · intro db i r h
    rw [Author.find_by_id, h]
  · intro db n ex
    rfl
  · intro db db2 i n ex r a l hfind hid hmem hname
    rw [Author.find_by_id, hfind] at hid
    have hra : row_to_author r = .ok a := map_some_ok hid
    exact mapRows_mem hname hmem hra

/-- Witness for C5: the same stored author row reached through
find_by_id and through find_by_name yields the same entity. -/
theorem c5_row_mapping_witness :
    (⟨some 1, "Alice Walker", some "t0"⟩ : Author) ∈
      [(⟨some 1, "Alice Walker", some "t0"⟩ : Author)] := by
  exact c5_row_mapping.2.2.2.2 sampleDB sampleDB 1 "Alice" false
    ⟨1, "Alice Walker", "t0"⟩ ⟨some 1, "Alice Walker", some "t0"⟩
    [⟨some 1, "Alice Walker", some "t0"⟩] rfl rfl (by decide) rfl

theorem mapRows_inv {f : α → Except PyErr β} {P : β → Prop}
    (hf : ∀ r b, f r = .ok b → P b) {rows : List α} {l : List β}
    (h : mapRows f rows = .ok l) : ∀ b ∈ l, P b := by
  intro b hb
  obtain ⟨r, _, hfr⟩ := mapRows_mem_src h hb
  exact hf r b hfr

/-- Claim C6: every entity any finder returns satisfies the Data Model
invariants (non-blank name/title of at most 255 characters, positive
foreign keys), because each finder routes its rows through the single
row conversion of its entity type, which re-runs constructor
validation. -/
theorem c6_finder_invariants :
    (∀ (db : DB) (i : Int) (a : Author),
        Author.find_by_id db i = .ok (some a) → authorInv a) ∧
    (∀ (db : DB) (n : String) (ex : Bool) (l : List Author),
        Author.find_by_name db n ex = .ok l → ∀ a ∈ l, authorInv a) ∧
    (∀ (db : DB) (i : Int) (x : Article),
        Article.find_by_id db i = .ok (some x) → articleInv x) ∧
    (∀ (db : DB) (t : String) (ex : Bool) (l : List Article),
        Article.find_by_title db t ex = .ok l → ∀ x ∈ l, articleInv x) ∧
    (∀ (db : DB) (i : Int) (lim : Option Int) (l : List Article),
        Article.find_by_author db i lim = .ok l → ∀ x ∈ l, articleInv x) ∧
    (∀ (db : DB) (i : Int) (lim : Option Int) (l : List Article),
        Article.find_by_magazine db i lim = .ok l → ∀ x ∈ l, articleInv x) ∧
    (∀ (db : DB) (i : Int) (m : Magazine),
        Magazine.find_by_id db i = .ok (some m) → magazineInv m) ∧
    (∀ (db : DB) (n : String) (ex : Bool) (l : List Magazine),
        Magazine.find_by_name db n ex = .ok l → ∀ m ∈ l, magazineInv m) ∧
    (∀ (db : DB) (c : String) (ex : Bool) (l : List Magazine),
        Magazine.find_by_category db c ex = .ok l → ∀ m ∈ l, magazineInv m) := by
  refine ⟨?_, ?_, ?_, ?_, ?_, ?_, ?_, ?_, ?_⟩
  · intro db i a h
    rw [Author.find_by_id] at h
    cases hf : db.authors.find? (fun r => r.id == i) with
    | none => rw [hf] at h; simp at h
    | some r => rw [hf] at h; exact row_to_author_inv (map_some_ok h)
  · intro db n ex l h
    rw [Author.find_by_name] at h
    exact mapRows_inv (fun r b hb => row_to_author_inv hb) h
  · intro db i x h
    rw [Article.find_by_id] at h
    cases hf : db.articles.find? (fun r => r.id == i) with
    | none => rw [hf] at h; simp at h
    | some r => rw [hf] at h; exact row_to_article_inv (map_some_ok h)
  · intro db t ex l h
    rw [Article.find_by_title] at h
    exact mapRows_inv (fun r b hb => row_to_article_inv hb) h
  · intro db i lim l h
    rw [Article.find_by_author] at h
    exact mapRows_inv (fun r b hb => row_to_article_inv hb) h
  · intro db i lim l h
    rw [Article.find_by_magazine] at h
    exact mapRows_inv (fun r b hb => row_to_article_inv hb) h
  · intro db i m h
    rw [Magazine.find_by_id] at h
    cases hf : db.magazines.find? (fun r => r.id == i) with
    | none => rw [hf] at h; simp at h
    | some r => rw [hf] at h; exact row_to_magazine_inv (map_some_ok h)
  · intro db n ex l h
    rw [Magazine.find_by_name] at h
    exact mapRows_inv (fun r b hb => row_to_magazine_inv hb) h
  · intro db c ex l h
    rw [Magazine.find_by_category] at h
    exact mapRows_inv (fun r b hb => row_to_magazine_inv hb) h

/-- Witness for C6: concrete finder results on the sample store satisfy
the invariants. -/
theorem c6_finder_invariants_witness :
    authorInv ⟨some 1, "Alice Walker", some "t0"⟩ ∧
    articleInv ⟨some 1, "The Color Purple", "Body", 1, 1, some "t0"⟩ :=
  ⟨c6_finder_invariants.1 sampleDB 1 ⟨some 1, "Alice Walker", some "t0"⟩ rfl,
   c6_finder_invariants.2.2.1 sampleDB 1
     ⟨some 1, "The Color Purple", "Body", 1, 1, some "t0"⟩ rfl⟩

/-- Claim C7: substring matching subsumes exact matching: whenever the
search term occurs inside a full name, every entity the exact finder
returns for the full name is also returned by the substring finder for
the term (for Author.find_by_name and Magazine.find_by_name). -/
theorem c7_substring_superset (db : DB) (term pre post full : String)
    (hfull : full = pre ++ term ++ post) :
    (∀ l1 l2, Author.find_by_name db full true = .ok l1 →
        Author.find_by_name db term false = .ok l2 → ∀ a ∈ l1, a ∈ l2) ∧
    (∀ l1 l2, Magazine.find_by_name db full true = .ok l1 →
        Magazine.find_by_name db term false = .ok l2 → ∀ m ∈ l1, m ∈ l2) := by
  constructor
  · intro l1 l2 h1 h2 a ha
    rw [Author.find_by_name] at h1 h2
    refine mapRows_subset ?_ h1 h2 a ha
    intro r hr
    rw [authorNameRows, if_pos rfl] at hr
    rw [authorNameRows, if_neg (by simp)]
    have hm := List.mem_filter.mp hr
    refine List.mem_filter.mpr ⟨hm.1, ?_⟩
    have hname : r.name = full := by simpa using hm.2
    rw [hname, hfull]
    exact sqlLike_of_substring term pre post
  · intro l1 l2 h1 h2 m hm0
    rw [Magazine.find_by_name] at h1 h2
    refine mapRows_subset ?_ h1 h2 m hm0
    intro r hr
    rw [magazineNameRows, if_pos rfl] at hr
    rw [magazineNameRows, if_neg (by simp)]
    have hm := List.mem_filter.mp hr
    refine List.mem_filter.mpr ⟨hm.1, ?_⟩
    have hname : r.name = full := by simpa using hm.2
    rw [hname, hfull]
    exact sqlLike_of_substring term pre post

/-- Witness for C7: on the sample store, the exact result for "Alice
Walker" is contained in the substring result for "Alice". -/
theorem c7_substring_superset_witness :
    Author.find_by_name sampleDB "Alice Walker" true =
      .ok [⟨some 1, "Alice Walker", some "t0"⟩] ∧
    Author.find_by_name sampleDB "Alice" false =
      .ok [⟨some 1, "Alice Walker", some "t0"⟩] ∧
    (⟨some 1, "Alice Walker", some "t0"⟩ : Author) ∈
      [(⟨some 1, "Alice Walker", some "t0"⟩ : Author)] := by
  refine ⟨rfl, rfl, ?_⟩
  exact (c7_substring_superset sampleDB "Alice" "" " Walker" "Alice Walker" rfl).1
    _ _ rfl rfl _ (by decide)

/-- A one-article store on which the pagination claim fails for
limit equal to zero. -/
def c8db : DB := ⟨[], [], [⟨1, "T", "B", 1, 1, "p"⟩], 1, 1, 2, "t"⟩

/-- Counterexample to C8 as stated: with limit 0, the Python truthiness
test drops the LIMIT clause entirely, so the call returns every
matching row instead of the first 0 elements of the unlimited
result. -/
theorem c8_pagination_counterexample :
    Article.find_by_author c8db 1 none =
      .ok [⟨some 1, "T", "B", 1, 1, some "p"⟩] ∧
    Article.find_by_author c8db 1 (some 0) ≠
      .ok (List.take 0 [⟨some 1, "T", "B", 1, 1, some "p"⟩]) := by
  constructor
  · rfl
  · intro h
    have e1 : Article.find_by_author c8db 1 (some 0) =
        .ok [(⟨some 1, "T", "B", 1, 1, some "p"⟩ : Article)] := rfl
    rw [e1] at h
    simp at h

/-- Claim C8 amended: for every limit n ≥ 1 (a truthy, non-negative
LIMIT), find_by_author (and find_by_magazine) with the limit returns
exactly the first n elements of the unlimited result, in order, with
the same per-row mapping; limit 0 (falsy) and negative limits return
the whole result instead. -/
theorem c8_pagination_amended (db : DB) (key n : Int) (hn : 1 ≤ n) :
    (∀ l, Article.find_by_author db key none = .ok l →
        Article.find_by_author db key (some n) = .ok (l.take n.toNat)) ∧
    (∀ l, Article.find_by_magazine db key none = .ok l →
        Article.find_by_magazine db key (some n) = .ok (l.take n.toNat)) := by
  have happ : ∀ (rows : List ArticleRow), applyLimit rows (none : Option Int) = rows :=
    fun rows => rfl
  have hlim : ∀ (rows : List ArticleRow), applyLimit rows (some n) = rows.take n.toNat := by
    intro rows
    rw [applyLimit]
    have ht : pyTruthy (some n) = true := by
      show (n != 0) = true
      simp only [bne_iff_ne, ne_eq]
      omega
    rw [if_pos ht]
    show (if n < 0 then rows else rows.take n.toNat) = rows.take n.toNat
    rw [if_neg (by omega)]
  constructor
  · intro l h
    rw [Article.find_by_author, happ] at h
    rw [Article.find_by_author, hlim]
    exact mapRows_take h n.toNat
  · intro l h
    rw [Article.find_by_magazine, happ] at h
    rw [Article.find_by_magazine, hlim]
    exact mapRows_take h n.toNat

/-- Witness for the amended C8: limit 1 on the one-article store keeps
exactly the first element. -/
theorem c8_pagination_amended_witness :
    Article.find_by_author c8db 1 (some 1) =
      .ok (List.take (Int.toNat 1) [⟨some 1, "T", "B", 1, 1, some "p"⟩]) :=
  (c8_pagination_amended c8db 1 1 (by omega)).1 _ rfl

/-- Claim C9: saving an entity whose identity is present performs an
update: the call succeeds returning the entity with its identity
unchanged, the store keeps the same number of rows under the same ids
(no duplicates), and saving again with unchanged fields leaves the
store in exactly the same state. -/
theorem c9_idempotent_update (db : DB) :
    (∀ (a : Author) (i : Int), a.id = some i →
        ∃ db1, Author.save a db = .ok (a, db1) ∧
          db1.authors.length = db.authors.length ∧
          db1.authors.map (fun r => r.id) = db.authors.map (fun r => r.id) ∧
          Author.save a db1 = .ok (a, db1)) ∧
    (∀ (x : Article) (i : Int), x.id = some i →
        ∃ db1, Article.save x db = .ok (x, db1) ∧
          db1.articles.length = db.articles.length ∧
          db1.articles.map (fun r => r.id) = db.articles.map (fun r => r.id) ∧
          Article.save x db1 = .ok (x, db1)) := by
  constructor
  · intro a i hid
    obtain ⟨aid, aname, aca⟩ := a
    have hid2 : aid = some i := hid
    subst hid2
    refine ⟨_, rfl, ?_, ?_, ?_⟩
    · simp
    · rw [List.map_map]
      apply List.map_congr_left
      intro r hr
      simp only [Function.comp]
      by_cases hri : (r.id == i) = true
      · rw [if_pos hri]
      · rw [if_neg hri]
    · simp only [Author.save]
      rw [List.map_map]
      have hcong : ∀ r ∈ db.authors,
          ((fun r => if r.id == i then { r with name := aname } else r) ∘
            (fun r => if r.id == i then { r with name := aname } else r)) r =
          (fun r => if r.id == i then { r with name := aname } else r) r := by
        intro r hr
        simp only [Function.comp]
        by_cases hri : (r.id == i) = true
        · rw [if_pos hri, if_pos hri]
        · rw [if_neg hri, if_neg hri]
      rw [List.map_congr_left hcong]
  · intro x i hid
    obtain ⟨xid, xtitle, xcontent, xaid, xmid, xpub⟩ := x
    have hid2 : xid = some i := hid
    subst hid2
    refine ⟨_, rfl, ?_, ?_, ?_⟩
    · simp
    · rw [List.map_map]
      apply List.map_congr_left
      intro r hr
      simp only [Function.comp]
      by_cases hri : (r.id == i) = true
      · rw [if_pos hri]
      · rw [if_neg hri]
    · simp only [Article.save]
      rw [List.map_map]
      have hcong : ∀ r ∈ db.articles,
          ((fun r => if r.id == i then
              { r with title := xtitle, content := xcontent,
                       author_id := xaid, magazine_id := xmid } else r) ∘
            (fun r => if r.id == i then
              { r with title := xtitle, content := xcontent,
                       author_id := xaid, magazine_id := xmid } else r)) r =
          (fun r => if r.id == i then
              { r with title := xtitle, content := xcontent,
                       author_id := xaid, magazine_id := xmid } else r) r := by
        intro r hr
        simp only [Function.comp]
        by_cases hri : (r.id == i) = true
        · rw [if_pos hri, if_pos hri]
        · rw [if_neg hri, if_neg hri]
      rw [List.map_congr_left hcong]

/-- Witness for C9: updating the author of the sample store twice with the
same fields produces the same store both times, with the identity
unchanged. -/
theorem c9_idempotent_update_witness :
    ∃ db1, Author.save ⟨some 1, "Alicia", some "t0"⟩ sampleDB =
        .ok (⟨some 1, "Alicia", some "t0"⟩, db1) ∧
      Author.save ⟨some 1, "Alicia", some "t0"⟩ db1 =
        .ok (⟨some 1, "Alicia", some "t0"⟩, db1) := by
  obtain ⟨db1, h1, _, _, h4⟩ :=
    (c9_idempotent_update sampleDB).1 ⟨some 1, "Alicia", some "t0"⟩ 1 rfl
  exact ⟨db1, h1, h4⟩

end ObjectRelations
